import Mathlib

/-!
# wipcosmos: the bank-send client (`server/server.go`, `server/resolver.go`)
and the HTTP handler (`cmd/cosmossdk/main.go`)

A shallow embedding of `BfxClient.Send`, `BfxClient.sign`,
`singleKeyResolver.Resolve` and of the factory construction in
`CosmosSdkApi.Send`.

Conventions of the embedding.

* A Go `[]byte` is a `List (Fin 256)`; the nil slice and the empty slice are
  both `[]` (`bytes.Equal` does not tell them apart either).
* A Go `(v, err)` result of a library call is an `Except Error v`; the result
  pair of `BfxClient.Send`, whose two components are named results, is kept as
  a pair (`SendResult`).
* `uint64` and `uint32` values are natural numbers; the code does no
  arithmetic on them.
* The cosmos-sdk and tendermint libraries are not part of the repository.
  Their operations are parameters: the fields of `Sdk`, `EncodingConfig` and
  `BfxClient`. A library call is a total function of its arguments; each call
  that can return an error is recorded in the trace of the run (`Call`).
* The transaction builder of the library is a record of the four fields the
  code sets; a setter stores its argument, and the two setters that can
  return an error do so as the encoding configuration says.
-/

namespace Wipcosmos

/-- A Go byte. -/
abbrev Byte := Fin 256

/-- A Go byte slice. -/
abbrev Bytes := List Byte

/-- A Go `error` value, identified by its text. -/
structure Error where
  text : String
  deriving DecidableEq, Repr

/-- The value `fmt.Errorf(format, args...)` returns, given the formatted text. -/
def Errorf (text : String) : Error := ⟨text⟩

/-- An `sdk.Coin`: a denomination and an integer amount. -/
structure Coin where
  Denom : String
  Amount : Int
  deriving DecidableEq, Repr

/-- The type `sdk.Coins`. -/
abbrev Coins := List Coin

/-- The bank module's `MsgSend`: the two addresses are kept in bech32 text. -/
structure MsgSend where
  FromAddress : String
  ToAddress : String
  Amount : Coins
  deriving DecidableEq, Repr

/-- A public key (`sdkcrypto.PubKey`), identified by its bytes. -/
structure PubKey where
  Key : Bytes
  deriving DecidableEq, Repr

/-- A private key (`sdkcrypto.PrivKey`), identified by its bytes, as in
`secp256k1.PrivKey{Key: ...}` of the test. -/
structure PrivKey where
  Key : Bytes
  deriving DecidableEq, Repr

/-- The sign modes of `types/tx/signing`. -/
inductive SignMode where
  | UNSPECIFIED
  | DIRECT
  | TEXTUAL
  | LEGACY_AMINO_JSON
  deriving DecidableEq, Repr

/-- The type `signing.SingleSignatureData`; a nil `Signature` is `[]`. -/
structure SingleSignatureData where
  SignMode : SignMode
  Signature : Bytes
  deriving DecidableEq, Repr

/-- The type `signing.SignatureV2`. -/
structure SignatureV2 where
  PubKey : PubKey
  Data : SingleSignatureData
  Sequence : Nat
  deriving DecidableEq, Repr

/-- The type `authsigning.SignerData`. -/
structure SignerData where
  ChainID : String
  AccountNumber : Nat
  Sequence : Nat
  deriving DecidableEq, Repr

/-- The state of a `client.TxBuilder`, which is also the transaction that
`builder.GetTx()` returns: messages, fee, gas limit and signatures. -/
structure Tx where
  Msgs : List MsgSend
  FeeAmount : Coins
  GasLimit : Nat
  Signatures : List SignatureV2
  deriving DecidableEq, Repr

/-- A protobuf `Any`, as carried by the account query response. -/
structure AnyValue where
  TypeUrl : String
  Value : Bytes
  deriving DecidableEq, Repr

/-- What the code reads of an `auth.AccountI`. -/
structure Account where
  AccountNumber : Nat
  Sequence : Nat
  deriving DecidableEq, Repr

/-- The tendermint `ResultBroadcastTx`, as far as the code reads it. -/
structure ResultBroadcastTx where
  Code : Nat
  Hash : Bytes
  Log : String
  deriving DecidableEq, Repr

/-- The free functions and interface methods of the cosmos-sdk that the code
calls. -/
structure Sdk where
  /-- The function `sdk.AccAddressFromBech32`. -/
  AccAddressFromBech32 : String → Except Error Bytes
  /-- The method `AccAddress.String`. -/
  AccAddressString : Bytes → String
  /-- The function `sdk.ParseCoinsNormalized`. -/
  ParseCoinsNormalized : String → Except Error Coins
  /-- The method `msg.ValidateBasic`; `none` is a nil error. -/
  ValidateBasic : MsgSend → Option Error
  /-- The method `msg.GetSigners`. -/
  GetSigners : MsgSend → List Bytes
  /-- The method `privKey.PubKey`. -/
  pubKey : PrivKey → PubKey
  /-- The method `pubKey.Address`, as bytes. -/
  address : PubKey → Bytes
  /-- The method `privKey.Sign`. -/
  Sign : PrivKey → Bytes → Except Error Bytes

/-- The field `encoding` of the client: `TxConfig` and `Marshaler`. -/
structure EncodingConfig where
  /-- The error `builder.SetMsgs` returns for these messages, if any. -/
  SetMsgs : List MsgSend → Option Error
  /-- The error `builder.SetSignatures` returns for these signatures, if any. -/
  SetSignatures : List SignatureV2 → Option Error
  /-- The result of `TxConfig.SignModeHandler().DefaultMode()`. -/
  DefaultMode : SignMode
  /-- The method `TxConfig.SignModeHandler().GetSignBytes`. -/
  GetSignBytes : SignMode → SignerData → Tx → Except Error Bytes
  /-- The function `TxConfig.TxEncoder()`. -/
  TxEncoder : Tx → Except Error Bytes
  /-- The method `Marshaler.UnpackAny` into an `auth.AccountI`. -/
  UnpackAny : AnyValue → Except Error Account

/-- The type `BfxClient`. The field `bank` is used by the constructor only. -/
structure BfxClient where
  chainID : String
  /-- The account query `auth.Account`, by the address of the request. -/
  auth : String → Except Error AnyValue
  /-- The call `tm.BroadcastTxSync`. -/
  tm : Bytes → Except Error ResultBroadcastTx
  encoding : EncodingConfig
  /-- The method `Resolve` of the `PrivateKeyResolver`. -/
  resolver : Bytes → Except Error PrivKey

/-- The type `BankSendRequest`. -/
structure BankSendRequest where
  Sender : String
  Receiver : String
  Amount : String
  FeeCoin : String
  GasLimit : Nat
  deriving DecidableEq, Repr

/-- The type `singleKeyResolver`. -/
structure singleKeyResolver where
  privateKey : PrivKey
  deriving DecidableEq, Repr

/-- The method `singleKeyResolver.Resolve` (resolver.go, lines 17 to 22). -/
def singleKeyResolver.Resolve (sdk : Sdk) (s : singleKeyResolver) (addr : Bytes) :
    Except Error PrivKey :=
  if ¬ (addr = sdk.address (sdk.pubKey s.privateKey)) then
    .error (Errorf "address not found")
  else
    .ok s.privateKey

/-- A library call that can return an error, with its arguments. The trace of
a run lists the calls in the order in which they were made. -/
inductive Call where
  | AccAddressFromBech32 (address : String)
  | ParseCoinsNormalized (coinStr : String)
  | Resolve (addr : Bytes)
  | ValidateBasic (msg : MsgSend)
  | SetMsgs (msgs : List MsgSend)
  | Account (address : String)
  | UnpackAny (any : AnyValue)
  | SetSignatures (sigs : List SignatureV2)
  | GetSignBytes (mode : SignMode) (data : SignerData) (tx : Tx)
  | Sign (privKey : PrivKey) (msg : Bytes)
  | TxEncoder (tx : Tx)
  | BroadcastTxSync (tx : Bytes)
  deriving DecidableEq, Repr

/-- How a Go function call ends: it returns, or it panics. -/
inductive Outcome (α : Type) where
  | returned (a : α)
  | panicked
  deriving DecidableEq, Repr

/-- The named results `(txHash string, err error)` of `BfxClient.Send`. -/
structure SendResult where
  txHash : String
  err : Option Error
  deriving DecidableEq, Repr

/-- The call `TxConfig.NewTxBuilder()`: an empty builder. -/
def NewTxBuilder : Tx := { Msgs := [], FeeAmount := [], GasLimit := 0, Signatures := [] }

/-- The call `builder.SetFeeAmount(fee)`. -/
def Tx.SetFeeAmount (builder : Tx) (fee : Coins) : Tx := { builder with FeeAmount := fee }

/-- The call `builder.SetGasLimit(gasLimit)`. -/
def Tx.SetGasLimit (builder : Tx) (gasLimit : Nat) : Tx := { builder with GasLimit := gasLimit }

/-- The call `builder.SetMsgs(msgs...)`. -/
def Tx.SetMsgs (cfg : EncodingConfig) (builder : Tx) (msgs : List MsgSend) : Except Error Tx :=
  match cfg.SetMsgs msgs with
  | some err => .error err
  | none => .ok { builder with Msgs := msgs }

/-- The call `builder.SetSignatures(sigs...)`: the signatures are replaced. -/
def Tx.SetSignatures (cfg : EncodingConfig) (builder : Tx) (sigs : List SignatureV2) :
    Except Error Tx :=
  match cfg.SetSignatures sigs with
  | some err => .error err
  | none => .ok { builder with Signatures := sigs }

/-- The function `bank.NewMsgSend`: the addresses are stored as bech32 text. -/
def NewMsgSend (sdk : Sdk) (fromAddr toAddr : Bytes) (amount : Coins) : MsgSend :=
  { FromAddress := sdk.AccAddressString fromAddr
    ToAddress := sdk.AccAddressString toAddr
    Amount := amount }

/-- The digits `0123456789ABCDEF` that Go's `fmt` uses for the verb `%X`. -/
def udigits : List Char :=
  ['0', '1', '2', '3', '4', '5', '6', '7', '8', '9', 'A', 'B', 'C', 'D', 'E', 'F']

/-- The digits `0123456789abcdef` that Go's `fmt` uses for the verb `%x`. -/
def ldigits : List Char :=
  ['0', '1', '2', '3', '4', '5', '6', '7', '8', '9', 'a', 'b', 'c', 'd', 'e', 'f']

/-- The two hexadecimal digits of a byte, high nibble first. -/
def fmtSbx (digits : List Char) (b : Byte) : List Char :=
  [digits.getD (b.val / 16) '0', digits.getD (b.val % 16) '0']

/-- The result of `fmt.Sprintf("%X", []byte(bz))`. -/
def SprintfUpperX (bz : Bytes) : String := String.mk (bz.flatMap (fmtSbx udigits))

/-- The result of `fmt.Sprintf("%x", []byte(bz))`: the lower-case hexadecimal
encoding of a plain byte slice. -/
def SprintfLowerX (bz : Bytes) : String := String.mk (bz.flatMap (fmtSbx ldigits))

/-- The method `HexBytes.Format` of tendermint's `libs/bytes`, for a verb
other than `p`. The field `Hash` of `ResultBroadcastTx` has the type
`bytes.HexBytes`, which implements `fmt.Formatter`, so `fmt` hands every verb
to this method; for every verb but `p` it writes
`fmt.Sprintf("%X", []byte(bz))`. -/
def HexBytes.Format (bz : Bytes) (_verb : Char) : String := SprintfUpperX bz

/-- The method `BfxClient.sign` (server.go, lines 123 to 206), with the trace
of its library calls. -/
def BfxClient.sign (sdk : Sdk) (c : BfxClient) (privKey : PrivKey) (msg : MsgSend)
    (fee : Coins) (gasLimit : Nat) : Outcome (Except Error Bytes) × List Call :=
  -- verify if msg is correct
  let t := [Call.ValidateBasic msg]
  match sdk.ValidateBasic msg with
  | some err => (.returned (.error err), t)
  | none =>
  let builder := NewTxBuilder
  -- set fees and gas limit
  let builder := builder.SetFeeAmount fee
  let builder := builder.SetGasLimit gasLimit
  let t := t ++ [Call.SetMsgs [msg]]
  match builder.SetMsgs c.encoding [msg] with
  | .error err => (.returned (.error err), t)
  | .ok builder =>
  let signMode := c.encoding.DefaultMode
  -- get account data: msg.GetSigners()[0] panics on an empty slice
  match sdk.GetSigners msg with
  | [] => (.panicked, t)
  | signer :: _ =>
  let t := t ++ [Call.Account (sdk.AccAddressString signer)]
  match c.auth (sdk.AccAddressString signer) with
  | .error err => (.returned (.error err), t)
  | .ok accountRaw =>
  let t := t ++ [Call.UnpackAny accountRaw]
  match c.encoding.UnpackAny accountRaw with
  | .error err => (.returned (.error err), t)
  | .ok account =>
  let signerData : SignerData :=
    { ChainID := c.chainID
      AccountNumber := account.AccountNumber
      Sequence := account.Sequence }
  let sigData : SingleSignatureData := { SignMode := signMode, Signature := [] }
  let sig : SignatureV2 :=
    { PubKey := sdk.pubKey privKey, Data := sigData, Sequence := account.Sequence }
  let t := t ++ [Call.SetSignatures [sig]]
  match builder.SetSignatures c.encoding [sig] with
  | .error err => (.returned (.error err), t)
  | .ok builder =>
  let t := t ++ [Call.GetSignBytes signMode signerData builder]
  match c.encoding.GetSignBytes signMode signerData builder with
  | .error err => (.returned (.error err), t)
  | .ok unsignedTx =>
  let t := t ++ [Call.Sign privKey unsignedTx]
  match sdk.Sign privKey unsignedTx with
  | .error err => (.returned (.error err), t)
  | .ok signedTx =>
  let sigData : SingleSignatureData := { SignMode := signMode, Signature := signedTx }
  let sig : SignatureV2 :=
    { PubKey := sdk.pubKey privKey, Data := sigData, Sequence := account.Sequence }
  let t := t ++ [Call.SetSignatures [sig]]
  match builder.SetSignatures c.encoding [sig] with
  | .error err => (.returned (.error err), t)
  | .ok builder =>
  let t := t ++ [Call.TxEncoder builder]
  (.returned (c.encoding.TxEncoder builder), t)

/-- The method `BfxClient.Send` (server.go, lines 78 to 121), with the trace of
its library calls. The named result `txHash` is the empty string on every
path that returns before the last line. -/
def BfxClient.Send (sdk : Sdk) (c : BfxClient) (req : BankSendRequest) :
    Outcome SendResult × List Call :=
  -- do req verification
  let t := [Call.AccAddressFromBech32 req.Sender]
  match sdk.AccAddressFromBech32 req.Sender with
  | .error err => (.returned ⟨"", some err⟩, t)
  | .ok senderAddr =>
  let t := t ++ [Call.AccAddressFromBech32 req.Receiver]
  match sdk.AccAddressFromBech32 req.Receiver with
  | .error err => (.returned ⟨"", some err⟩, t)
  | .ok recvAddr =>
  let t := t ++ [Call.ParseCoinsNormalized req.Amount]
  match sdk.ParseCoinsNormalized req.Amount with
  | .error err => (.returned ⟨"", some err⟩, t)
  | .ok amount =>
  let t := t ++ [Call.ParseCoinsNormalized req.FeeCoin]
  match sdk.ParseCoinsNormalized req.FeeCoin with
  | .error err => (.returned ⟨"", some err⟩, t)
  | .ok feeCoin =>
  let msgBankSend := NewMsgSend sdk senderAddr recvAddr amount
  -- get account
  let t := t ++ [Call.Resolve senderAddr]
  match c.resolver senderAddr with
  | .error err => (.returned ⟨"", some err⟩, t)
  | .ok privKey =>
  -- sign
  match c.sign sdk privKey msgBankSend feeCoin req.GasLimit with
  | (.panicked, ts) => (.panicked, t ++ ts)
  | (.returned (.error err), ts) => (.returned ⟨"", some err⟩, t ++ ts)
  | (.returned (.ok txBytes), ts) =>
  -- post tx in async mode
  let t := t ++ ts ++ [Call.BroadcastTxSync txBytes]
  match c.tm txBytes with
  | .error err => (.returned ⟨"", some err⟩, t)
  | .ok tmResp =>
  if tmResp.Code ≠ 0 then
    (.returned ⟨"", some (Errorf
      ("transaction rejected: code(" ++ toString tmResp.Code ++ "): " ++ tmResp.Log))⟩, t)
  else
    (.returned ⟨HexBytes.Format tmResp.Hash 'x', none⟩, t)

/-- The error of a Go `(v, err)` result; `none` is a nil error. -/
def errOf {α : Type} : Except Error α → Option Error
  | .error err => some err
  | .ok _ => none

/-- The error that a library call returns in the given library and client;
`none` when the call succeeds. A broadcast that returns a response with a
non-zero code has succeeded as a call. -/
def Call.err (sdk : Sdk) (c : BfxClient) : Call → Option Error
  | .AccAddressFromBech32 address => errOf (sdk.AccAddressFromBech32 address)
  | .ParseCoinsNormalized coinStr => errOf (sdk.ParseCoinsNormalized coinStr)
  | .Resolve addr => errOf (c.resolver addr)
  | .ValidateBasic msg => sdk.ValidateBasic msg
  | .SetMsgs msgs => c.encoding.SetMsgs msgs
  | .Account address => errOf (c.auth address)
  | .UnpackAny any => errOf (c.encoding.UnpackAny any)
  | .SetSignatures sigs => c.encoding.SetSignatures sigs
  | .GetSignBytes mode data tx => errOf (c.encoding.GetSignBytes mode data tx)
  | .Sign privKey msg => errOf (sdk.Sign privKey msg)
  | .TxEncoder tx => errOf (c.encoding.TxEncoder tx)
  | .BroadcastTxSync tx => errOf (c.tm tx)

/-- The library operation that a call invokes, without its arguments. -/
inductive Op where
  | AccAddressFromBech32
  | ParseCoinsNormalized
  | Resolve
  | ValidateBasic
  | SetMsgs
  | Account
  | UnpackAny
  | SetSignatures
  | GetSignBytes
  | Sign
  | TxEncoder
  | BroadcastTxSync
  deriving DecidableEq, Repr

/-- The operation of a call. -/
def Call.op : Call → Op
  | .AccAddressFromBech32 _ => .AccAddressFromBech32
  | .ParseCoinsNormalized _ => .ParseCoinsNormalized
  | .Resolve _ => .Resolve
  | .ValidateBasic _ => .ValidateBasic
  | .SetMsgs _ => .SetMsgs
  | .Account _ => .Account
  | .UnpackAny _ => .UnpackAny
  | .SetSignatures _ => .SetSignatures
  | .GetSignBytes _ _ _ => .GetSignBytes
  | .Sign _ _ => .Sign
  | .TxEncoder _ => .TxEncoder
  | .BroadcastTxSync _ => .BroadcastTxSync

/-- The fifteen stages of `BfxClient.Send` in the order of the code: parse
sender, parse receiver, parse amount, parse fee, resolve key, validate message,
set messages, account query, account unpack, set placeholder signature,
compute sign bytes, sign, set real signature, wire-encode, broadcast. -/
def sendStages : List Op :=
  [.AccAddressFromBech32, .AccAddressFromBech32, .ParseCoinsNormalized,
   .ParseCoinsNormalized, .Resolve, .ValidateBasic, .SetMsgs, .Account, .UnpackAny,
   .SetSignatures, .GetSignBytes, .Sign, .SetSignatures, .TxEncoder, .BroadcastTxSync]

/-- The nine stages of `BfxClient.sign` in the order of the code: the stages
of `sendStages` from the sixth to the fourteenth. -/
def signStages : List Op :=
  [.ValidateBasic, .SetMsgs, .Account, .UnpackAny, .SetSignatures, .GetSignBytes, .Sign,
   .SetSignatures, .TxEncoder]

/-- The envelope that `sign` builds for a message, a fee, a gas limit and one
signature entry. -/
def envelope (msg : MsgSend) (fee : Coins) (gasLimit : Nat) (sig : SignatureV2) : Tx :=
  { Msgs := [msg], FeeAmount := fee, GasLimit := gasLimit, Signatures := [sig] }

/-- The signature entry that `sign` builds: the public key of the private
key, the default sign mode, the signature bytes and the sequence. -/
def sigEntry (sdk : Sdk) (c : BfxClient) (privKey : PrivKey) (sequence : Nat)
    (signature : Bytes) : SignatureV2 :=
  { PubKey := sdk.pubKey privKey
    Data := { SignMode := c.encoding.DefaultMode, Signature := signature }
    Sequence := sequence }

/-- The method `Coins.IsAllPositive` of the cosmos-sdk: the set is not empty
and every amount is strictly positive. -/
def Coins.IsAllPositive (coins : Coins) : Bool :=
  !coins.isEmpty && coins.all fun coin => decide (0 < coin.Amount)

/-! ## A concrete library, network and client

The scenario of the repository's test: one held key, the chain `testing`, a
transfer of `100stake` with a fee of `10stake` and a gas limit of 200000, an
account with number 5 and sequence 2. The library functions are small
stand-ins that keep the properties the code relies on. -/

/-- A stand-in for the cosmos-sdk: two known bech32 addresses; the coin
strings of the test, `0stake`, which `ParseCoinsNormalized` parses to no
coin, and `0stake,5atom`, which it parses to the coin `5atom`, a zero coin
being removed when the coins are sanitised; `ValidateBasic`
of `MsgSend`, which checks that both addresses parse and that the amount is
all positive, and does not compare the two addresses; and a toy key scheme. -/
def demoSdk : Sdk where
  AccAddressFromBech32 := fun s =>
    if s = "cosmos1sender" then .ok [1, 2]
    else if s = "cosmos1receiver" then .ok [3, 4]
    else .error ⟨"decoding bech32 failed"⟩
  AccAddressString := fun a =>
    if a = [1, 2] then "cosmos1sender"
    else if a = [3, 4] then "cosmos1receiver"
    else ""
  ParseCoinsNormalized := fun s =>
    if s = "100stake" then .ok [⟨"stake", 100⟩]
    else if s = "10stake" then .ok [⟨"stake", 10⟩]
    else if s = "0stake" then .ok []
    else if s = "0stake,5atom" then .ok [⟨"atom", 5⟩]
    else .error ⟨"invalid decimal coin expression"⟩
  ValidateBasic := fun msg =>
    if msg.FromAddress ≠ "cosmos1sender" ∧ msg.FromAddress ≠ "cosmos1receiver" then
      some ⟨"invalid sender address"⟩
    else if msg.ToAddress ≠ "cosmos1sender" ∧ msg.ToAddress ≠ "cosmos1receiver" then
      some ⟨"invalid recipient address"⟩
    else if msg.Amount = [] ∨ ∃ coin ∈ msg.Amount, coin.Amount ≤ 0 then
      some ⟨"invalid coins"⟩
    else none
  GetSigners := fun msg =>
    if msg.FromAddress = "cosmos1sender" then [[1, 2]]
    else if msg.FromAddress = "cosmos1receiver" then [[3, 4]]
    else []
  pubKey := fun k => ⟨k.Key.reverse⟩
  address := fun pk => pk.Key
  Sign := fun k b => .ok (k.Key ++ b)

/-- A stand-in for the encoding configuration: the setters accept everything,
the sign bytes carry the account number and the sequence, the wire bytes are
the signature bytes. -/
def demoEncoding : EncodingConfig where
  SetMsgs := fun _ => none
  SetSignatures := fun _ => none
  DefaultMode := .DIRECT
  GetSignBytes := fun _ data _ => .ok [Fin.ofNat data.AccountNumber, Fin.ofNat data.Sequence]
  TxEncoder := fun tx => .ok (tx.Signatures.flatMap fun s => s.Data.Signature)
  UnpackAny := fun any =>
    if any.TypeUrl = "/cosmos.auth.v1beta1.BaseAccount" then
      .ok { AccountNumber := 5, Sequence := 2 }
    else .error ⟨"no concrete type registered"⟩

/-- The key held by the resolver of the scenario; its address is `[1, 2]`. -/
def demoKey : PrivKey := ⟨[2, 1]⟩

/-- A key whose address is `[9, 9]`: not the sender of the scenario. -/
def otherKey : PrivKey := ⟨[9, 9]⟩

/-- The node of the scenario: it knows the sender's account and accepts every
transaction with the hash `0xabcd`. -/
def demoClient : BfxClient where
  chainID := "testing"
  auth := fun address =>
    if address = "cosmos1sender" then .ok ⟨"/cosmos.auth.v1beta1.BaseAccount", []⟩
    else .error ⟨"account not found"⟩
  tm := fun _ => .ok { Code := 0, Hash := [0xab, 0xcd], Log := "" }
  encoding := demoEncoding
  resolver := singleKeyResolver.Resolve demoSdk ⟨demoKey⟩

/-- The client of the scenario with a resolver that holds another key. -/
def strangerClient : BfxClient :=
  { demoClient with resolver := singleKeyResolver.Resolve demoSdk ⟨otherKey⟩ }

/-- The client of the scenario with a node that rejects every transaction
with the code 5 and the log `insufficient fee`. -/
def rejectingClient : BfxClient :=
  { demoClient with tm := fun _ => .ok { Code := 5, Hash := [], Log := "insufficient fee" } }

/-- The request of the test. -/
def demoReq : BankSendRequest :=
  { Sender := "cosmos1sender", Receiver := "cosmos1receiver", Amount := "100stake",
    FeeCoin := "10stake", GasLimit := 200000 }

/-- The request of the test with an amount of zero; the demo library parses
`0stake` to the empty set of coins, the zero coin being removed. -/
def zeroReq : BankSendRequest := { demoReq with Amount := "0stake" }

/-- The request of the test with the amount `0stake,5atom`: a zero quantity
next to a positive one. -/
def mixedReq : BankSendRequest := { demoReq with Amount := "0stake,5atom" }

/-- The request of the test with the sender as the receiver. -/
def selfReq : BankSendRequest := { demoReq with Receiver := "cosmos1sender" }

/-! ## The HTTP handler `CosmosSdkApi.Send` (cmd/cosmossdk/main.go)

The handler builds two transaction factories: one for `tx.BuildUnsignedTx`
and one for `tx.Sign`. The embedding follows lines 146 to 212 on the path that
reaches `tx.Sign`; a factory and a client context are records of the fields
that the `With...` methods of the library set, each method returning a copy
with one field replaced, and `tx.Factory{}` and `client.Context{}` are the
records of zero values. -/

/-- A Go `float64`, by its 64 bits; the code only copies such values. -/
structure Float64 where
  bits : Nat
  deriving DecidableEq, Repr

/-- The type `BankSendBody`; an `AccAddress` is its bytes. -/
structure BankSendBody where
  AccountNumber : Nat
  Sequence : Nat
  Sender : Bytes
  Receiver : Bytes
  Denom : String
  Amount : Int
  ChainID : String
  Memo : String
  Fee : Int
  GasAdjustment : Float64
  Gas : Nat
  deriving DecidableEq, Repr

/-- The type `Config`. -/
structure Config where
  Provider : String
  TendermintProvider : String
  Currency : String
  ChainID : String
  Denom : String
  CosmosSdkPort : String
  Password : String
  Fee : Int
  GasAdjustment : Float64
  Gas : Nat
  deriving DecidableEq, Repr

/-- The type `CosmosSdkApi`; the keyring is not read by the embedding. -/
structure CosmosSdkApi where
  Config : Config
  deriving DecidableEq, Repr

/-- The fields of the library's `client.Context` that the handler sets or
reads. An interface field is `true` when it has been set. -/
structure Context where
  JSONMarshaler : Bool
  InterfaceRegistry : Bool
  TxConfig : Bool
  LegacyAmino : Bool
  Input : Bool
  AccountRetriever : Bool
  BroadcastMode : String
  HomeDir : String
  Keyring : Bool
  SkipConfirmation : Bool
  NodeURI : String
  ChainID : String
  deriving DecidableEq, Repr

/-- The composite literal `client.Context{}`: every field has its zero value. -/
def Context.zero : Context :=
  { JSONMarshaler := false, InterfaceRegistry := false, TxConfig := false,
    LegacyAmino := false, Input := false, AccountRetriever := false, BroadcastMode := "",
    HomeDir := "", Keyring := false, SkipConfirmation := false, NodeURI := "", ChainID := "" }

/-- The fields of the library's `tx.Factory` that the handler sets. An
interface field is `true` when it has been set; fees and gas prices are kept
as the text handed to the library. -/
structure Factory where
  txConfig : Bool
  accountRetriever : Bool
  keybase : Bool
  chainID : String
  accountNumber : Nat
  sequence : Nat
  fees : String
  gasPrices : String
  memo : String
  gas : Nat
  gasAdjustment : Float64
  simulateAndExecute : Bool
  signMode : SignMode
  deriving DecidableEq, Repr

/-- The composite literal `tx.Factory{}`: every field has its zero value. -/
def Factory.zero : Factory :=
  { txConfig := false, accountRetriever := false, keybase := false, chainID := "",
    accountNumber := 0, sequence := 0, fees := "", gasPrices := "", memo := "", gas := 0,
    gasAdjustment := ⟨0⟩, simulateAndExecute := false, signMode := .UNSPECIFIED }

/-- The method `Factory.WithTxConfig`. -/
def Factory.WithTxConfig (f : Factory) : Factory := { f with txConfig := true }

/-- The method `Factory.WithAccountRetriever`, given whether the retriever is set. -/
def Factory.WithAccountRetriever (f : Factory) (ar : Bool) : Factory :=
  { f with accountRetriever := ar }

/-- The method `Factory.WithKeybase`, given whether the keyring is set. -/
def Factory.WithKeybase (f : Factory) (keybase : Bool) : Factory := { f with keybase := keybase }

/-- The method `Factory.WithChainID`. -/
def Factory.WithChainID (f : Factory) (chainID : String) : Factory :=
  { f with chainID := chainID }

/-- The method `Factory.WithAccountNumber`. -/
def Factory.WithAccountNumber (f : Factory) (accnum : Nat) : Factory :=
  { f with accountNumber := accnum }

/-- The method `Factory.WithSequence`. -/
def Factory.WithSequence (f : Factory) (sequence : Nat) : Factory :=
  { f with sequence := sequence }

/-- The method `Factory.WithFees`. -/
def Factory.WithFees (f : Factory) (fees : String) : Factory := { f with fees := fees }

/-- The method `Factory.WithGasPrices`. -/
def Factory.WithGasPrices (f : Factory) (gasPrices : String) : Factory :=
  { f with gasPrices := gasPrices }

/-- The method `Factory.WithMemo`. -/
def Factory.WithMemo (f : Factory) (memo : String) : Factory := { f with memo := memo }

/-- The method `Factory.WithGas`. -/
def Factory.WithGas (f : Factory) (gas : Nat) : Factory := { f with gas := gas }

/-- The method `Factory.WithGasAdjustment`. -/
def Factory.WithGasAdjustment (f : Factory) (gasAdj : Float64) : Factory :=
  { f with gasAdjustment := gasAdj }

/-- The method `Factory.WithSimulateAndExecute`. -/
def Factory.WithSimulateAndExecute (f : Factory) (sim : Bool) : Factory :=
  { f with simulateAndExecute := sim }

/-- The method `Factory.WithSignMode`. -/
def Factory.WithSignMode (f : Factory) (mode : SignMode) : Factory := { f with signMode := mode }

/-- The factories that the handler hands to the library. -/
structure SendFactories where
  /-- The factory `txfDirect`, the argument of `tx.BuildUnsignedTx`. -/
  txfDirect : Factory
  /-- The factory `txf`, the argument of `tx.Sign`. -/
  txf : Factory
  deriving DecidableEq, Repr

/-- The handler `CosmosSdkApi.Send` from the decoded body to the call of
`tx.Sign` (main.go, lines 146 to 212): the body is overridden by the
configuration, the client context and the three factories are built. The
denomination `coins.GetDenomByIndex(0)` is the configured one, the only coin
being built with it. -/
def CosmosSdkApi.Send (sdk : CosmosSdkApi) (body : BankSendBody) : SendFactories :=
  let bsb := { body with
    Denom := sdk.Config.Denom
    Gas := sdk.Config.Gas
    Fee := sdk.Config.Fee
    GasAdjustment := sdk.Config.GasAdjustment
    ChainID := sdk.Config.ChainID }
  let cfg : Context := { Context.zero with
    JSONMarshaler := true
    InterfaceRegistry := true
    TxConfig := true
    LegacyAmino := true
    Input := true
    AccountRetriever := true
    BroadcastMode := "block"
    HomeDir := "./db"
    Keyring := true
    SkipConfirmation := true
    NodeURI := sdk.Config.TendermintProvider }
  let txfNoKeybase := ((((((((Factory.zero.WithTxConfig).WithAccountNumber
    bsb.AccountNumber).WithSequence bsb.Sequence).WithFees
    (toString bsb.Fee ++ sdk.Config.Denom)).WithMemo bsb.Memo).WithGas bsb.Gas).WithGasAdjustment
    bsb.GasAdjustment).WithChainID bsb.ChainID)
  let txfDirect := (txfNoKeybase.WithKeybase cfg.Keyring).WithSignMode .DIRECT
  let txf := (((((((Factory.zero.WithTxConfig).WithAccountRetriever
    cfg.AccountRetriever).WithKeybase cfg.Keyring).WithChainID cfg.ChainID).WithSimulateAndExecute
    true).WithGasAdjustment bsb.GasAdjustment).WithGasPrices
    (toString sdk.Config.Fee ++ sdk.Config.Denom)).WithSignMode .DIRECT
  { txfDirect := txfDirect, txf := txf }

/-- A configuration for the chain `testing`. -/
def demoConfig : Config :=
  { Provider := "http://localhost:1317", TendermintProvider := "tcp://localhost:26657",
    Currency := "ATOM", ChainID := "testing", Denom := "stake", CosmosSdkPort := "8080",
    Password := "", Fee := 10, GasAdjustment := ⟨0⟩, Gas := 200000 }

/-- A request body for the account with number 5 and sequence 2. -/
def demoBody : BankSendBody :=
  { AccountNumber := 5, Sequence := 2, Sender := [1, 2], Receiver := [3, 4], Denom := "",
    Amount := 100, ChainID := "", Memo := "", Fee := 0, GasAdjustment := ⟨0⟩, Gas := 0 }

/-! ## Lemmas on the builder and on the run of `sign` -/

/-- The call `SetMsgs` fails exactly when the configuration says so. -/
theorem Tx.SetMsgs_eq_error (cfg : EncodingConfig) (b : Tx) (msgs : List MsgSend) (e : Error) :
    b.SetMsgs cfg msgs = .error e ↔ cfg.SetMsgs msgs = some e := by
  unfold Tx.SetMsgs; cases cfg.SetMsgs msgs <;> simp

/-- The call `SetMsgs`, when it succeeds, replaces the messages only. -/
theorem Tx.SetMsgs_eq_ok (cfg : EncodingConfig) (b b' : Tx) (msgs : List MsgSend) :
    b.SetMsgs cfg msgs = .ok b' ↔ cfg.SetMsgs msgs = none ∧ b' = { b with Msgs := msgs } := by
  unfold Tx.SetMsgs; cases cfg.SetMsgs msgs <;> simp [eq_comm]

/-- The call `SetSignatures` fails exactly when the configuration says so. -/
theorem Tx.SetSignatures_eq_error (cfg : EncodingConfig) (b : Tx) (sigs : List SignatureV2)
    (e : Error) : b.SetSignatures cfg sigs = .error e ↔ cfg.SetSignatures sigs = some e := by
  unfold Tx.SetSignatures; cases cfg.SetSignatures sigs <;> simp

/-- The call `SetSignatures`, when it succeeds, replaces the signatures only. -/
theorem Tx.SetSignatures_eq_ok (cfg : EncodingConfig) (b b' : Tx) (sigs : List SignatureV2) :
    b.SetSignatures cfg sigs = .ok b' ↔
      cfg.SetSignatures sigs = none ∧ b' = { b with Signatures := sigs } := by
  unfold Tx.SetSignatures; cases cfg.SetSignatures sigs <;> simp [eq_comm]

set_option maxHeartbeats 1600000 in
/-- The run of `sign`: its calls are an initial segment of the nine stages,
every call but the last succeeded, a failing call is the last one and its
error is the result, and a run without a failing call either panics or
returns the bytes of the encoder after all nine stages. -/
theorem sign_run (sdk : Sdk) (c : BfxClient) (privKey : PrivKey)
    (msg : MsgSend) (fee : Coins) (gasLimit : Nat) (r : Outcome (Except Error Bytes))
    (ts : List Call) (h : c.sign sdk privKey msg fee gasLimit = (r, ts)) :
    (ts.map Call.op <+: signStages) ∧
    ts ≠ [] ∧
    (∀ call ∈ ts.dropLast, call.err sdk c = none) ∧
    (∀ call ∈ ts, ∀ e, call.err sdk c = some e →
      r = .returned (.error e) ∧ ts.getLast? = some call) ∧
    (∀ e, r = .returned (.error e) → ∃ call ∈ ts, call.err sdk c = some e) ∧
    (∀ b, r = .returned (.ok b) → ts.map Call.op = signStages) ∧
    (∀ call ∈ ts, ∀ op, call.op = op → op ∈ signStages) := by
  simp only [BfxClient.sign] at h
  repeat' split at h
  all_goals cases h
  all_goals try simp only [Tx.SetMsgs_eq_error, Tx.SetMsgs_eq_ok, Tx.SetSignatures_eq_error,
    Tx.SetSignatures_eq_ok] at *
  all_goals (try casesm* _ ∧ _)
  all_goals subst_vars
  all_goals refine ⟨?_, ?_, ?_, ?_, ?_, ?_, ?_⟩
  all_goals first
    | (simp [Call.op, signStages]; done)
    | (simp [Call.err, errOf, *]; done)
    | (cases hE : c.encoding.TxEncoder _ <;> simp [Call.err, errOf, *])

/-- A run of `sign` that returns bytes: every stage succeeded, and the bytes
are the encoding of the envelope with the signature over the sign bytes of the
envelope with the placeholder. -/
theorem sign_ok (sdk : Sdk) (c : BfxClient) (privKey : PrivKey)
    (msg : MsgSend) (fee : Coins) (gasLimit : Nat) (txBytes : Bytes)
    (ts : List Call) (h : c.sign sdk privKey msg fee gasLimit = (.returned (.ok txBytes), ts)) :
    ∃ signer rest accountRaw account unsignedTx signedTx,
      sdk.GetSigners msg = signer :: rest ∧
      c.auth (sdk.AccAddressString signer) = .ok accountRaw ∧
      c.encoding.UnpackAny accountRaw = .ok account ∧
      c.encoding.GetSignBytes c.encoding.DefaultMode
        { ChainID := c.chainID, AccountNumber := account.AccountNumber,
          Sequence := account.Sequence }
        (envelope msg fee gasLimit (sigEntry sdk c privKey account.Sequence [])) =
          .ok unsignedTx ∧
      sdk.Sign privKey unsignedTx = .ok signedTx ∧
      c.encoding.TxEncoder
        (envelope msg fee gasLimit (sigEntry sdk c privKey account.Sequence signedTx)) =
          .ok txBytes ∧
      ts = [.ValidateBasic msg, .SetMsgs [msg], .Account (sdk.AccAddressString signer),
        .UnpackAny accountRaw,
        .SetSignatures [sigEntry sdk c privKey account.Sequence []],
        .GetSignBytes c.encoding.DefaultMode
          { ChainID := c.chainID, AccountNumber := account.AccountNumber,
            Sequence := account.Sequence }
          (envelope msg fee gasLimit (sigEntry sdk c privKey account.Sequence [])),
        .Sign privKey unsignedTx,
        .SetSignatures [sigEntry sdk c privKey account.Sequence signedTx],
        .TxEncoder
          (envelope msg fee gasLimit (sigEntry sdk c privKey account.Sequence signedTx))] := by
  simp only [BfxClient.sign] at h
  repeat' split at h
  all_goals try (simp at h; done)
  all_goals try simp only [Tx.SetMsgs_eq_error, Tx.SetMsgs_eq_ok, Tx.SetSignatures_eq_error,
    Tx.SetSignatures_eq_ok] at *
  all_goals (try casesm* _ ∧ _)
  all_goals subst_vars
  simp only [Prod.mk.injEq, Outcome.returned.injEq] at h
  obtain ⟨henc, rfl⟩ := h
  refine ⟨_, _, _, _, _, _, ‹_›, ‹_›, ‹_›, ?_, ‹_›, ?_, ?_⟩
  · simpa [envelope, sigEntry, NewTxBuilder, Tx.SetFeeAmount, Tx.SetGasLimit] using ‹_›
  · simpa [envelope, sigEntry, NewTxBuilder, Tx.SetFeeAmount, Tx.SetGasLimit] using henc
  · simp [envelope, sigEntry, NewTxBuilder, Tx.SetFeeAmount, Tx.SetGasLimit]

/-- A run of `Send` that returns a nil error: the five stages before `sign`
succeeded, `sign` returned bytes, and the node answered the broadcast of these
bytes with the code 0. -/
theorem Send_ok (sdk : Sdk) (c : BfxClient) (req : BankSendRequest) (txHash : String)
    (h : (c.Send sdk req).1 = .returned ⟨txHash, none⟩) :
    ∃ senderAddr recvAddr amount feeCoin privKey txBytes ts tmResp,
      sdk.AccAddressFromBech32 req.Sender = .ok senderAddr ∧
      sdk.AccAddressFromBech32 req.Receiver = .ok recvAddr ∧
      sdk.ParseCoinsNormalized req.Amount = .ok amount ∧
      sdk.ParseCoinsNormalized req.FeeCoin = .ok feeCoin ∧
      c.resolver senderAddr = .ok privKey ∧
      c.sign sdk privKey (NewMsgSend sdk senderAddr recvAddr amount) feeCoin req.GasLimit =
        (.returned (.ok txBytes), ts) ∧
      c.tm txBytes = .ok tmResp ∧
      tmResp.Code = 0 ∧
      txHash = HexBytes.Format tmResp.Hash 'x' ∧
      (c.Send sdk req).2 =
        [.AccAddressFromBech32 req.Sender, .AccAddressFromBech32 req.Receiver,
         .ParseCoinsNormalized req.Amount, .ParseCoinsNormalized req.FeeCoin,
         .Resolve senderAddr] ++ ts ++ [.BroadcastTxSync txBytes] := by
  rcases hrun : c.Send sdk req with ⟨r, t⟩
  rw [hrun] at h
  simp only [BfxClient.Send] at hrun
  repeat' split at hrun
  all_goals cases hrun
  all_goals try (simp at h; done)
  simp only [Outcome.returned.injEq, SendResult.mk.injEq, and_true] at h
  refine ⟨_, _, _, _, _, _, _, _, ‹_›, ‹_›, ‹_›, ‹_›, ‹_›, ‹_›, ‹_›, ?_, h.symm, ?_⟩
  · exact not_not.mp ‹¬ _›
  · simp

/-! ## The key resolver -/

/-- Claim C4. For every held private key `K` and every byte sequence `addr`,
`singleKeyResolver.Resolve` returns `K` without error exactly when `addr` is
equal, byte for byte, to the address derived from the public key of `K`, and
it returns no key and the error `address not found` exactly when `addr` is any
other byte sequence (the empty one and one of another length included). -/
theorem singleKeyResolver_Resolve_spec (sdk : Sdk) (K : PrivKey) (addr : Bytes) :
    (singleKeyResolver.Resolve sdk ⟨K⟩ addr = .ok K ↔
        addr = sdk.address (sdk.pubKey K)) ∧
    (singleKeyResolver.Resolve sdk ⟨K⟩ addr = .error (Errorf "address not found") ↔
        addr ≠ sdk.address (sdk.pubKey K)) := by
  unfold singleKeyResolver.Resolve
  by_cases h : addr = sdk.address (sdk.pubKey K) <;> simp [h]

/-! ## Key resolution failure in `Send` -/

/-- Claim C2. For every request whose sender, receiver, amount and fee strings
parse, if the resolver fails with `e` for the bytes of the sender address,
`Send` returns the empty hash together with `e`; the calls made are the four
parsing calls and the call of the resolver, so neither the account query nor
the broadcast call is invoked. -/
theorem Send_resolve_failure (sdk : Sdk) (c : BfxClient) (req : BankSendRequest)
    (senderAddr recvAddr : Bytes) (amount feeCoin : Coins) (e : Error)
    (hsender : sdk.AccAddressFromBech32 req.Sender = .ok senderAddr)
    (hrecv : sdk.AccAddressFromBech32 req.Receiver = .ok recvAddr)
    (hamount : sdk.ParseCoinsNormalized req.Amount = .ok amount)
    (hfee : sdk.ParseCoinsNormalized req.FeeCoin = .ok feeCoin)
    (hresolve : c.resolver senderAddr = .error e) :
    (c.Send sdk req).1 = .returned ⟨"", some e⟩ ∧
    (c.Send sdk req).2 =
      [.AccAddressFromBech32 req.Sender, .AccAddressFromBech32 req.Receiver,
       .ParseCoinsNormalized req.Amount, .ParseCoinsNormalized req.FeeCoin,
       .Resolve senderAddr] ∧
    (∀ call ∈ (c.Send sdk req).2, call.op ≠ .Account ∧ call.op ≠ .BroadcastTxSync) := by
  simp [BfxClient.Send, hsender, hrecv, hamount, hfee, hresolve, Call.op]

/-- The resolver of `strangerClient` holds a key whose address is not the
sender of `demoReq`: the request fails with the resolver's error after five
calls. -/
theorem Send_resolve_failure_witness :
    (strangerClient.Send demoSdk demoReq).1 = .returned ⟨"", some ⟨"address not found"⟩⟩ ∧
    (strangerClient.Send demoSdk demoReq).2 =
      [.AccAddressFromBech32 "cosmos1sender", .AccAddressFromBech32 "cosmos1receiver",
       .ParseCoinsNormalized "100stake", .ParseCoinsNormalized "10stake",
       .Resolve [1, 2]] ∧
    (∀ call ∈ (strangerClient.Send demoSdk demoReq).2,
      call.op ≠ .Account ∧ call.op ≠ .BroadcastTxSync) :=
  Send_resolve_failure demoSdk strangerClient demoReq [1, 2] [3, 4]
    [⟨"stake", 100⟩] [⟨"stake", 10⟩] ⟨"address not found"⟩
    rfl rfl rfl rfl rfl

/-! ## The signature of a successful `Send` -/

/-- Claim C1. When `Send` succeeds, the signature entry of the encoded
transaction carries the public key of the resolved key `K` and the signature
`K.Sign(b)`, where `b` is what the sign-mode handler computes from the signer
data made of the chain ID of the client and of the account number and the
sequence returned by the account query; the one account query made is for the
first signer of the message, which is the sender address, the library
returning the sender of a `MsgSend` as its first signer. -/
theorem Send_signature_over_sign_bytes (sdk : Sdk) (c : BfxClient) (req : BankSendRequest)
    (txHash : String)
    (hsigner : ∀ s r a, sdk.AccAddressFromBech32 req.Sender = .ok s →
      (sdk.GetSigners (NewMsgSend sdk s r a)).head? = some s)
    (hok : (c.Send sdk req).1 = .returned ⟨txHash, none⟩) :
    ∃ senderAddr K accountRaw account placeholderTx signBytes signature tx txBytes,
      sdk.AccAddressFromBech32 req.Sender = .ok senderAddr ∧
      c.resolver senderAddr = .ok K ∧
      Call.Account (sdk.AccAddressString senderAddr) ∈ (c.Send sdk req).2 ∧
      (∀ address, Call.Account address ∈ (c.Send sdk req).2 →
        address = sdk.AccAddressString senderAddr) ∧
      c.auth (sdk.AccAddressString senderAddr) = .ok accountRaw ∧
      c.encoding.UnpackAny accountRaw = .ok account ∧
      c.encoding.GetSignBytes c.encoding.DefaultMode
        { ChainID := c.chainID, AccountNumber := account.AccountNumber,
          Sequence := account.Sequence } placeholderTx = .ok signBytes ∧
      Call.GetSignBytes c.encoding.DefaultMode
        { ChainID := c.chainID, AccountNumber := account.AccountNumber,
          Sequence := account.Sequence } placeholderTx ∈ (c.Send sdk req).2 ∧
      sdk.Sign K signBytes = .ok signature ∧
      Call.TxEncoder tx ∈ (c.Send sdk req).2 ∧
      tx.Signatures =
        [{ PubKey := sdk.pubKey K,
           Data := { SignMode := c.encoding.DefaultMode, Signature := signature },
           Sequence := account.Sequence }] ∧
      c.encoding.TxEncoder tx = .ok txBytes ∧
      Call.BroadcastTxSync txBytes ∈ (c.Send sdk req).2 := by
  obtain ⟨senderAddr, recvAddr, amount, feeCoin, K, txBytes, ts, tmResp, h1, h2, h3, h4, h5,
    hsign, h6, h7, h8, htrace⟩ := Send_ok sdk c req txHash hok
  obtain ⟨signer, rest, accountRaw, account, signBytes, signature, g1, g2, g3, g4, g5, g6, hts⟩ :=
    sign_ok sdk c K _ feeCoin req.GasLimit txBytes ts hsign
  have hs := hsigner senderAddr recvAddr amount h1
  rw [g1] at hs
  simp only [List.head?_cons, Option.some.injEq] at hs
  subst hs
  refine ⟨signer, K, accountRaw, account, _, signBytes, signature, _, txBytes, h1, h5, ?_, ?_,
    g2, g3, g4, ?_, g5, ?_, ?_, g6, ?_⟩
  · rw [htrace, hts]; simp
  · intro address hmem
    rw [htrace, hts] at hmem
    simpa using hmem
  · rw [htrace, hts]; simp
  · rw [htrace, hts]; simp
  · simp [envelope, sigEntry]
  · rw [htrace]; simp

/-- The request of the test succeeds on the demo client: the hypotheses of
`Send_signature_over_sign_bytes` hold there. -/
theorem Send_signature_over_sign_bytes_witness :
    ∃ senderAddr K accountRaw account placeholderTx signBytes signature tx txBytes,
      demoSdk.AccAddressFromBech32 demoReq.Sender = .ok senderAddr ∧
      demoClient.resolver senderAddr = .ok K ∧
      Call.Account (demoSdk.AccAddressString senderAddr) ∈ (demoClient.Send demoSdk demoReq).2 ∧
      (∀ address, Call.Account address ∈ (demoClient.Send demoSdk demoReq).2 →
        address = demoSdk.AccAddressString senderAddr) ∧
      demoClient.auth (demoSdk.AccAddressString senderAddr) = .ok accountRaw ∧
      demoClient.encoding.UnpackAny accountRaw = .ok account ∧
      demoClient.encoding.GetSignBytes demoClient.encoding.DefaultMode
        { ChainID := demoClient.chainID, AccountNumber := account.AccountNumber,
          Sequence := account.Sequence } placeholderTx = .ok signBytes ∧
      Call.GetSignBytes demoClient.encoding.DefaultMode
        { ChainID := demoClient.chainID, AccountNumber := account.AccountNumber,
          Sequence := account.Sequence } placeholderTx ∈ (demoClient.Send demoSdk demoReq).2 ∧
      demoSdk.Sign K signBytes = .ok signature ∧
      Call.TxEncoder tx ∈ (demoClient.Send demoSdk demoReq).2 ∧
      tx.Signatures =
        [{ PubKey := demoSdk.pubKey K,
           Data := { SignMode := demoClient.encoding.DefaultMode, Signature := signature },
           Sequence := account.Sequence }] ∧
      demoClient.encoding.TxEncoder tx = .ok txBytes ∧
      Call.BroadcastTxSync txBytes ∈ (demoClient.Send demoSdk demoReq).2 :=
  Send_signature_over_sign_bytes demoSdk demoClient demoReq "ABCD"
    (by
      intro s r a hs
      have : s = [1, 2] := by
        have h : demoSdk.AccAddressFromBech32 demoReq.Sender = .ok [1, 2] := rfl
        rw [h] at hs
        exact (Except.ok.inj hs).symm
      subst this
      rfl)
    rfl

/-! ## The envelope of a successful `Send` -/

/-- Claim C9. For every successful `Send`, the envelope handed to the wire
encoder, whose bytes are broadcast, holds exactly one message, the bank
transfer built from the parsed sender, the parsed receiver and the parsed
amount, a fee equal to the parsed fee coins, the gas limit of the request, and
exactly one signature entry, whose public key is that of the key resolved for
the sender address. -/
theorem Send_envelope (sdk : Sdk) (c : BfxClient) (req : BankSendRequest) (txHash : String)
    (hok : (c.Send sdk req).1 = .returned ⟨txHash, none⟩) :
    ∃ senderAddr recvAddr amount feeCoin K tx txBytes sig,
      sdk.AccAddressFromBech32 req.Sender = .ok senderAddr ∧
      sdk.AccAddressFromBech32 req.Receiver = .ok recvAddr ∧
      sdk.ParseCoinsNormalized req.Amount = .ok amount ∧
      sdk.ParseCoinsNormalized req.FeeCoin = .ok feeCoin ∧
      c.resolver senderAddr = .ok K ∧
      Call.TxEncoder tx ∈ (c.Send sdk req).2 ∧
      (∀ tx', Call.TxEncoder tx' ∈ (c.Send sdk req).2 → tx' = tx) ∧
      c.encoding.TxEncoder tx = .ok txBytes ∧
      Call.BroadcastTxSync txBytes ∈ (c.Send sdk req).2 ∧
      tx.Msgs = [NewMsgSend sdk senderAddr recvAddr amount] ∧
      tx.FeeAmount = feeCoin ∧
      tx.GasLimit = req.GasLimit ∧
      tx.Signatures = [sig] ∧
      sig.PubKey = sdk.pubKey K := by
  obtain ⟨senderAddr, recvAddr, amount, feeCoin, K, txBytes, ts, tmResp, h1, h2, h3, h4, h5,
    hsign, h6, h7, h8, htrace⟩ := Send_ok sdk c req txHash hok
  obtain ⟨signer, rest, accountRaw, account, signBytes, signature, g1, g2, g3, g4, g5, g6, hts⟩ :=
    sign_ok sdk c K _ feeCoin req.GasLimit txBytes ts hsign
  refine ⟨senderAddr, recvAddr, amount, feeCoin, K, _, txBytes,
    sigEntry sdk c K account.Sequence signature, h1, h2, h3, h4, h5, ?_, ?_,
    g6, ?_, ?_, ?_, ?_, ?_, ?_⟩
  · rw [htrace, hts]; simp
  · intro tx' hmem
    rw [htrace, hts] at hmem
    simpa using hmem
  · rw [htrace]; simp
  · simp [envelope]
  · simp [envelope]
  · simp [envelope]
  · simp [envelope]
  · simp [sigEntry]

/-- The request of the test succeeds on the demo client: its envelope holds
the transfer of `100stake`, the fee `10stake` and the gas limit 200000. -/
theorem Send_envelope_witness :
    ∃ senderAddr recvAddr amount feeCoin K tx txBytes sig,
      demoSdk.AccAddressFromBech32 demoReq.Sender = .ok senderAddr ∧
      demoSdk.AccAddressFromBech32 demoReq.Receiver = .ok recvAddr ∧
      demoSdk.ParseCoinsNormalized demoReq.Amount = .ok amount ∧
      demoSdk.ParseCoinsNormalized demoReq.FeeCoin = .ok feeCoin ∧
      demoClient.resolver senderAddr = .ok K ∧
      Call.TxEncoder tx ∈ (demoClient.Send demoSdk demoReq).2 ∧
      (∀ tx', Call.TxEncoder tx' ∈ (demoClient.Send demoSdk demoReq).2 → tx' = tx) ∧
      demoClient.encoding.TxEncoder tx = .ok txBytes ∧
      Call.BroadcastTxSync txBytes ∈ (demoClient.Send demoSdk demoReq).2 ∧
      tx.Msgs = [NewMsgSend demoSdk senderAddr recvAddr amount] ∧
      tx.FeeAmount = feeCoin ∧
      tx.GasLimit = demoReq.GasLimit ∧
      tx.Signatures = [sig] ∧
      sig.PubKey = demoSdk.pubKey K :=
  Send_envelope demoSdk demoClient demoReq "ABCD" rfl

/-! ## The two envelope states of `sign` -/

/-- Claim C5. In `sign`, the envelope from which the sign bytes are computed
and the envelope that is wire-encoded differ only in the signature bytes: the
messages, the fee and the gas limit are the same, each has a single signature
entry, with the same public key, sign mode and sequence; the entry of the
first has a nil signature and the entry of the second has the signature that
the private key produced over the sign bytes of the first. -/
theorem sign_envelopes_differ_in_signature_only (sdk : Sdk) (c : BfxClient)
    (privKey : PrivKey) (msg : MsgSend) (fee : Coins) (gasLimit : Nat)
    (mode : SignMode) (data : SignerData) (txSigned txEncoded : Tx)
    (hsigned : Call.GetSignBytes mode data txSigned ∈ (c.sign sdk privKey msg fee gasLimit).2)
    (hencoded : Call.TxEncoder txEncoded ∈ (c.sign sdk privKey msg fee gasLimit).2) :
    txEncoded.Msgs = txSigned.Msgs ∧
    txEncoded.FeeAmount = txSigned.FeeAmount ∧
    txEncoded.GasLimit = txSigned.GasLimit ∧
    ∃ pubKey signMode sequence signBytes signature,
      txSigned.Signatures =
        [{ PubKey := pubKey, Data := { SignMode := signMode, Signature := [] },
           Sequence := sequence }] ∧
      txEncoded.Signatures =
        [{ PubKey := pubKey, Data := { SignMode := signMode, Signature := signature },
           Sequence := sequence }] ∧
      c.encoding.GetSignBytes mode data txSigned = .ok signBytes ∧
      sdk.Sign privKey signBytes = .ok signature := by
  rcases hrun : c.sign sdk privKey msg fee gasLimit with ⟨r, ts⟩
  rw [hrun] at hsigned hencoded
  simp only [BfxClient.sign] at hrun
  repeat' split at hrun
  all_goals cases hrun
  all_goals try (simp at hencoded; done)
  simp only [Tx.SetMsgs_eq_ok, Tx.SetSignatures_eq_ok] at *
  casesm* _ ∧ _
  subst_vars
  simp at hsigned hencoded
  obtain ⟨rfl, rfl, rfl⟩ := hsigned
  subst hencoded
  exact ⟨rfl, rfl, rfl, _, _, _, _, _, rfl, rfl, ‹_›, ‹_›⟩

/-- On the demo client, `sign` reaches the encoder: the envelope with the
placeholder and the encoded envelope are both in the trace. -/
theorem sign_envelopes_differ_in_signature_only_witness :
    (envelope (NewMsgSend demoSdk [1, 2] [3, 4] [⟨"stake", 100⟩]) [⟨"stake", 10⟩] 200000
        (sigEntry demoSdk demoClient demoKey 2 [2, 1, 5, 2])).Msgs =
      (envelope (NewMsgSend demoSdk [1, 2] [3, 4] [⟨"stake", 100⟩]) [⟨"stake", 10⟩] 200000
        (sigEntry demoSdk demoClient demoKey 2 [])).Msgs ∧
    (envelope (NewMsgSend demoSdk [1, 2] [3, 4] [⟨"stake", 100⟩]) [⟨"stake", 10⟩] 200000
        (sigEntry demoSdk demoClient demoKey 2 [2, 1, 5, 2])).FeeAmount =
      (envelope (NewMsgSend demoSdk [1, 2] [3, 4] [⟨"stake", 100⟩]) [⟨"stake", 10⟩] 200000
        (sigEntry demoSdk demoClient demoKey 2 [])).FeeAmount ∧
    (envelope (NewMsgSend demoSdk [1, 2] [3, 4] [⟨"stake", 100⟩]) [⟨"stake", 10⟩] 200000
        (sigEntry demoSdk demoClient demoKey 2 [2, 1, 5, 2])).GasLimit =
      (envelope (NewMsgSend demoSdk [1, 2] [3, 4] [⟨"stake", 100⟩]) [⟨"stake", 10⟩] 200000
        (sigEntry demoSdk demoClient demoKey 2 [])).GasLimit ∧
    ∃ pubKey signMode sequence signBytes signature,
      (envelope (NewMsgSend demoSdk [1, 2] [3, 4] [⟨"stake", 100⟩]) [⟨"stake", 10⟩] 200000
        (sigEntry demoSdk demoClient demoKey 2 [])).Signatures =
        [{ PubKey := pubKey, Data := { SignMode := signMode, Signature := [] },
           Sequence := sequence }] ∧
      (envelope (NewMsgSend demoSdk [1, 2] [3, 4] [⟨"stake", 100⟩]) [⟨"stake", 10⟩] 200000
        (sigEntry demoSdk demoClient demoKey 2 [2, 1, 5, 2])).Signatures =
        [{ PubKey := pubKey, Data := { SignMode := signMode, Signature := signature },
           Sequence := sequence }] ∧
      demoClient.encoding.GetSignBytes .DIRECT ⟨"testing", 5, 2⟩
        (envelope (NewMsgSend demoSdk [1, 2] [3, 4] [⟨"stake", 100⟩]) [⟨"stake", 10⟩] 200000
          (sigEntry demoSdk demoClient demoKey 2 [])) = .ok signBytes ∧
      demoSdk.Sign demoKey signBytes = .ok signature :=
  sign_envelopes_differ_in_signature_only demoSdk demoClient demoKey
    (NewMsgSend demoSdk [1, 2] [3, 4] [⟨"stake", 100⟩]) [⟨"stake", 10⟩] 200000
    .DIRECT ⟨"testing", 5, 2⟩ _ _ (by decide) (by decide)

/-! ## The outcome of the broadcast -/

/-- Claim C3, as the claim states it, fails: the node of the demo client
answers the broadcast with the code 0 and the hash `0xabcd`, and `Send`
returns `ABCD`, not the lower-case encoding `abcd`. -/
theorem Send_hash_is_not_lower_case :
    Call.BroadcastTxSync [2, 1, 5, 2] ∈ (demoClient.Send demoSdk demoReq).2 ∧
    demoClient.tm [2, 1, 5, 2] = .ok { Code := 0, Hash := [0xab, 0xcd], Log := "" } ∧
    SprintfLowerX [0xab, 0xcd] = "abcd" ∧
    (demoClient.Send demoSdk demoReq).1 = .returned ⟨"ABCD", none⟩ ∧
    (demoClient.Send demoSdk demoReq).1 ≠
      .returned ⟨SprintfLowerX [0xab, 0xcd], none⟩ := by
  refine ⟨by decide, rfl, by decide, by decide, by decide⟩

/-- Claim C3, amended. For every response that the node returns to the
broadcast of `Send` without transport error: with the code 0, `Send` returns a
nil error and the upper-case hexadecimal encoding of the hash, two digits for
each byte, in order; with another code, `Send` returns the empty hash and the
error whose text is `transaction rejected: code(`, the code in decimal, `): `
and the log unchanged. -/
theorem Send_broadcast_outcome (sdk : Sdk) (c : BfxClient) (req : BankSendRequest)
    (txBytes : Bytes) (tmResp : ResultBroadcastTx)
    (hcall : Call.BroadcastTxSync txBytes ∈ (c.Send sdk req).2)
    (hresp : c.tm txBytes = .ok tmResp) :
    (tmResp.Code = 0 →
      (c.Send sdk req).1 = .returned ⟨SprintfUpperX tmResp.Hash, none⟩) ∧
    (tmResp.Code ≠ 0 →
      (c.Send sdk req).1 = .returned ⟨"", some (Errorf
        ("transaction rejected: code(" ++ toString tmResp.Code ++ "): " ++ tmResp.Log))⟩) := by
  rcases hrun : c.Send sdk req with ⟨r, t⟩
  rw [hrun] at hcall
  simp only [BfxClient.Send] at hrun
  repeat' split at hrun
  all_goals cases hrun
  all_goals try (simp at hcall; done)
  all_goals
    have hs := (sign_run _ _ _ _ _ _ _ _ (by assumption)).2.2.2.2.2.2
    have hts : ∀ b, Call.BroadcastTxSync b ∉ _ := fun b hb => by
      have := hs _ hb _ rfl
      simp [Call.op, signStages] at this
    simp [hts] at hcall
  all_goals subst hcall
  all_goals simp_all [HexBytes.Format]

/-- The demo node accepts with the hash `0xabcd` and `Send` returns `ABCD`;
the rejecting node answers with the code 5 and `Send` returns the rejection
error with the code and the log. -/
theorem Send_broadcast_outcome_witness :
    (demoClient.Send demoSdk demoReq).1 = .returned ⟨"ABCD", none⟩ ∧
    (rejectingClient.Send demoSdk demoReq).1 =
      .returned ⟨"", some ⟨"transaction rejected: code(5): insufficient fee"⟩⟩ :=
  ⟨(Send_broadcast_outcome demoSdk demoClient demoReq [2, 1, 5, 2]
      { Code := 0, Hash := [0xab, 0xcd], Log := "" } (by decide) rfl).1 rfl,
   (Send_broadcast_outcome demoSdk rejectingClient demoReq [2, 1, 5, 2]
      { Code := 5, Hash := [], Log := "insufficient fee" } (by decide) rfl).2 (by decide)⟩

/-! ## A transferred amount that is not positive -/

/-- A message that `ValidateBasic` rejects ends `sign` at its first stage. -/
theorem sign_validate_error (sdk : Sdk) (c : BfxClient) (privKey : PrivKey) (msg : MsgSend)
    (fee : Coins) (gasLimit : Nat) (r : Outcome (Except Error Bytes)) (ts : List Call)
    (h : c.sign sdk privKey msg fee gasLimit = (r, ts)) (hv : sdk.ValidateBasic msg ≠ none) :
    ∃ e, sdk.ValidateBasic msg = some e ∧ r = .returned (.error e) ∧
      ts = [.ValidateBasic msg] := by
  cases hm : sdk.ValidateBasic msg with
  | none => exact absurd hm hv
  | some e =>
    simp only [BfxClient.sign, hm, Prod.mk.injEq] at h
    exact ⟨e, rfl, h.1.symm, h.2.symm⟩

/-- Claim C6, as the claim states it, fails, in two ways. The amount `0stake`
passes coin parsing in the demo library, the resolver of `strangerClient` does
not hold the sender's key, and `Send` returns the resolver's error
`address not found` before `ValidateBasic` is called: the error is no
validation error. And the amount `0stake,5atom` has a zero quantity, the coin
parsing drops the zero coin and keeps `5atom`, `ValidateBasic` accepts the
message, and `Send` on the demo client makes the account query, signs,
broadcasts and returns a hash with a nil error. -/
theorem Send_zero_quantity_not_rejected_by_validation :
    (demoSdk.ParseCoinsNormalized zeroReq.Amount = .ok [] ∧
      Coins.IsAllPositive [] = false ∧
      strangerClient.resolver [1, 2] = .error ⟨"address not found"⟩ ∧
      (strangerClient.Send demoSdk zeroReq).1 =
        .returned ⟨"", some ⟨"address not found"⟩⟩ ∧
      (strangerClient.Send demoSdk zeroReq).2 =
        [.AccAddressFromBech32 "cosmos1sender", .AccAddressFromBech32 "cosmos1receiver",
         .ParseCoinsNormalized "0stake", .ParseCoinsNormalized "10stake",
         .Resolve [1, 2]]) ∧
    (demoSdk.ParseCoinsNormalized mixedReq.Amount = .ok [⟨"atom", 5⟩] ∧
      (demoClient.Send demoSdk mixedReq).1 = .returned ⟨"ABCD", none⟩ ∧
      Call.Account "cosmos1sender" ∈ (demoClient.Send demoSdk mixedReq).2 ∧
      Call.Sign demoKey [5, 2] ∈ (demoClient.Send demoSdk mixedReq).2 ∧
      Call.BroadcastTxSync [2, 1, 5, 2] ∈ (demoClient.Send demoSdk mixedReq).2) := by
  refine ⟨⟨rfl, rfl, rfl, by decide, by decide⟩, rfl, by decide, by decide, by decide,
    by decide⟩

/-- Claim C6, amended. For every request whose transferred amount, as
`ParseCoinsNormalized` returns it when it parses, is not all positive (no coin
is left once the zero coins are removed, or a quantity is zero or negative),
the library's `ValidateBasic` rejecting such amounts, `Send` returns the empty
hash and the error of its last call, which is an address parsing, a coin
parsing, the key resolution or `ValidateBasic`, and it makes no account query,
no call of `Sign` and no broadcast. -/
theorem Send_nonpositive_amount (sdk : Sdk) (c : BfxClient) (req : BankSendRequest)
    (hvalidate : ∀ msg, sdk.ValidateBasic msg = none → Coins.IsAllPositive msg.Amount = true)
    (hamount : ∀ amount, sdk.ParseCoinsNormalized req.Amount = .ok amount →
      Coins.IsAllPositive amount = false) :
    (∃ e call, (c.Send sdk req).1 = .returned ⟨"", some e⟩ ∧
      (c.Send sdk req).2.getLast? = some call ∧ call.err sdk c = some e ∧
      (call.op = .AccAddressFromBech32 ∨ call.op = .ParseCoinsNormalized ∨
        call.op = .Resolve ∨ call.op = .ValidateBasic)) ∧
    (∀ call ∈ (c.Send sdk req).2,
      call.op ≠ .Account ∧ call.op ≠ .Sign ∧ call.op ≠ .BroadcastTxSync) := by
  rcases hrun : c.Send sdk req with ⟨r, t⟩
  simp only [BfxClient.Send] at hrun
  repeat' split at hrun
  all_goals cases hrun
  all_goals try (simp [Call.op, Call.err, errOf, *]; done)
  all_goals
    have hpos := hamount _ ‹sdk.ParseCoinsNormalized req.Amount = Except.ok _›
    obtain ⟨e, hv, hr, hts⟩ := sign_validate_error _ _ _ _ _ _ _ _ (by assumption)
      (fun hv => by have := hvalidate _ hv; simp [NewMsgSend, hpos] at this)
    simp at hr
  subst_vars
  simp [Call.op, Call.err, errOf, *]

/-- The library's `ValidateBasic` is modelled in the demo library as
rejecting every amount that is not all positive. -/
theorem demoSdk_ValidateBasic (msg : MsgSend) (h : demoSdk.ValidateBasic msg = none) :
    Coins.IsAllPositive msg.Amount = true := by
  simp only [demoSdk] at h
  split_ifs at h with h1 h2 h3
  simp only [not_or, not_exists, not_and, not_le] at h3
  simp only [Coins.IsAllPositive, Bool.and_eq_true, Bool.not_eq_true', List.isEmpty_eq_false,
    List.all_eq_true, decide_eq_true_eq]
  exact ⟨h3.1, h3.2⟩

/-- The request with the amount `0stake` on the demo client: the amount
parses to no coin, `ValidateBasic` rejects the message with `invalid coins`,
and the run ends there. -/
theorem Send_nonpositive_amount_witness :
    (∃ e call, (demoClient.Send demoSdk zeroReq).1 = .returned ⟨"", some e⟩ ∧
      (demoClient.Send demoSdk zeroReq).2.getLast? = some call ∧
      call.err demoSdk demoClient = some e ∧
      (call.op = .AccAddressFromBech32 ∨ call.op = .ParseCoinsNormalized ∨
        call.op = .Resolve ∨ call.op = .ValidateBasic)) ∧
    (∀ call ∈ (demoClient.Send demoSdk zeroReq).2,
      call.op ≠ .Account ∧ call.op ≠ .Sign ∧ call.op ≠ .BroadcastTxSync) :=
  Send_nonpositive_amount demoSdk demoClient zeroReq demoSdk_ValidateBasic
    (fun amount h => by
      have h0 : demoSdk.ParseCoinsNormalized zeroReq.Amount = .ok [] := rfl
      rw [h0] at h
      rw [← Except.ok.inj h]
      rfl)

/-! ## A transfer to the sender itself -/

/-- When `ValidateBasic` and `SetMsgs` accept the message and the message has
a signer, `sign` goes on to the account query for the first signer. -/
theorem sign_reaches_account (sdk : Sdk) (c : BfxClient) (privKey : PrivKey) (msg : MsgSend)
    (fee : Coins) (gasLimit : Nat) (signer : Bytes) (rest : List Bytes)
    (hvalid : sdk.ValidateBasic msg = none) (hmsgs : c.encoding.SetMsgs [msg] = none)
    (hsigners : sdk.GetSigners msg = signer :: rest) :
    ∃ ts, (c.sign sdk privKey msg fee gasLimit).2 =
      [.ValidateBasic msg, .SetMsgs [msg], .Account (sdk.AccAddressString signer)] ++ ts := by
  rcases hrun : c.sign sdk privKey msg fee gasLimit with ⟨r, t⟩
  simp only [BfxClient.sign] at hrun
  repeat' split at hrun
  all_goals cases hrun
  all_goals try simp only [Tx.SetMsgs_eq_error, Tx.SetMsgs_eq_ok] at *
  all_goals simp_all

/-- Claim C8, as the claim states it, fails: the request of the test with the
sender as the receiver succeeds on the demo client, whose `ValidateBasic` is
that of `MsgSend` and does not compare the two addresses; the account query,
the signing and the broadcast are made. -/
theorem Send_to_self_succeeds :
    selfReq.Receiver = selfReq.Sender ∧
    demoSdk.AccAddressFromBech32 selfReq.Sender = .ok [1, 2] ∧
    (demoClient.Send demoSdk selfReq).1 = .returned ⟨"ABCD", none⟩ ∧
    Call.Account "cosmos1sender" ∈ (demoClient.Send demoSdk selfReq).2 ∧
    Call.Sign demoKey [5, 2] ∈ (demoClient.Send demoSdk selfReq).2 ∧
    Call.BroadcastTxSync [2, 1, 5, 2] ∈ (demoClient.Send demoSdk selfReq).2 := by
  refine ⟨rfl, rfl, by decide, by decide, by decide, by decide⟩

/-- When every stage of `sign` succeeds, `sign` returns the bytes of the
encoder after its nine calls. -/
theorem sign_all_stages (sdk : Sdk) (c : BfxClient) (privKey : PrivKey) (msg : MsgSend)
    (fee : Coins) (gasLimit : Nat) (signer : Bytes) (rest : List Bytes)
    (accountRaw : AnyValue) (account : Account) (signBytes signature txBytes : Bytes)
    (hvalid : sdk.ValidateBasic msg = none) (hmsgs : c.encoding.SetMsgs [msg] = none)
    (hsigners : sdk.GetSigners msg = signer :: rest)
    (hauth : c.auth (sdk.AccAddressString signer) = .ok accountRaw)
    (hunpack : c.encoding.UnpackAny accountRaw = .ok account)
    (hplaceholder :
      c.encoding.SetSignatures [sigEntry sdk c privKey account.Sequence []] = none)
    (hbytes : c.encoding.GetSignBytes c.encoding.DefaultMode
      { ChainID := c.chainID, AccountNumber := account.AccountNumber,
        Sequence := account.Sequence }
      (envelope msg fee gasLimit (sigEntry sdk c privKey account.Sequence [])) = .ok signBytes)
    (hsign : sdk.Sign privKey signBytes = .ok signature)
    (hfinal :
      c.encoding.SetSignatures [sigEntry sdk c privKey account.Sequence signature] = none)
    (henc : c.encoding.TxEncoder
      (envelope msg fee gasLimit (sigEntry sdk c privKey account.Sequence signature)) =
        .ok txBytes) :
    c.sign sdk privKey msg fee gasLimit =
      (.returned (.ok txBytes),
        [.ValidateBasic msg, .SetMsgs [msg], .Account (sdk.AccAddressString signer),
         .UnpackAny accountRaw,
         .SetSignatures [sigEntry sdk c privKey account.Sequence []],
         .GetSignBytes c.encoding.DefaultMode
           { ChainID := c.chainID, AccountNumber := account.AccountNumber,
             Sequence := account.Sequence }
           (envelope msg fee gasLimit (sigEntry sdk c privKey account.Sequence [])),
         .Sign privKey signBytes,
         .SetSignatures [sigEntry sdk c privKey account.Sequence signature],
         .TxEncoder
           (envelope msg fee gasLimit (sigEntry sdk c privKey account.Sequence signature))]) := by
  simp only [envelope, sigEntry] at *
  simp [BfxClient.sign, Tx.SetMsgs, Tx.SetSignatures, NewTxBuilder, Tx.SetFeeAmount,
    Tx.SetGasLimit, *]

/-- Claim C8, amended. For every request in which the sender string and the
receiver string parse to the same address, `Send` has no check of its own that
the two differ: when the amount and the fee parse, the key resolves, and the
library's `ValidateBasic` and `SetMsgs` accept the transfer from the sender to
itself, `Send` validates exactly that message and goes on to the account query
for its first signer; and when every later stage succeeds and the node
answers the broadcast with the code 0, `Send` has made all fifteen calls,
signing and broadcast included, and returns the hash with a nil error. -/
theorem Send_to_self_is_not_rejected (sdk : Sdk) (c : BfxClient) (req : BankSendRequest)
    (senderAddr : Bytes) (amount feeCoin : Coins) (K : PrivKey) (signer : Bytes)
    (rest : List Bytes)
    (hsender : sdk.AccAddressFromBech32 req.Sender = .ok senderAddr)
    (hrecv : sdk.AccAddressFromBech32 req.Receiver = .ok senderAddr)
    (hamount : sdk.ParseCoinsNormalized req.Amount = .ok amount)
    (hfee : sdk.ParseCoinsNormalized req.FeeCoin = .ok feeCoin)
    (hresolve : c.resolver senderAddr = .ok K)
    (hvalid : sdk.ValidateBasic (NewMsgSend sdk senderAddr senderAddr amount) = none)
    (hmsgs : c.encoding.SetMsgs [NewMsgSend sdk senderAddr senderAddr amount] = none)
    (hsigners : sdk.GetSigners (NewMsgSend sdk senderAddr senderAddr amount) = signer :: rest) :
    (∃ ts, (c.Send sdk req).2 =
      [.AccAddressFromBech32 req.Sender, .AccAddressFromBech32 req.Receiver,
       .ParseCoinsNormalized req.Amount, .ParseCoinsNormalized req.FeeCoin,
       .Resolve senderAddr,
       .ValidateBasic (NewMsgSend sdk senderAddr senderAddr amount),
       .SetMsgs [NewMsgSend sdk senderAddr senderAddr amount],
       .Account (sdk.AccAddressString signer)] ++ ts) ∧
    (∀ accountRaw account signBytes signature txBytes tmResp,
      c.auth (sdk.AccAddressString signer) = .ok accountRaw →
      c.encoding.UnpackAny accountRaw = .ok account →
      c.encoding.SetSignatures [sigEntry sdk c K account.Sequence []] = none →
      c.encoding.GetSignBytes c.encoding.DefaultMode
        { ChainID := c.chainID, AccountNumber := account.AccountNumber,
          Sequence := account.Sequence }
        (envelope (NewMsgSend sdk senderAddr senderAddr amount) feeCoin req.GasLimit
          (sigEntry sdk c K account.Sequence [])) = .ok signBytes →
      sdk.Sign K signBytes = .ok signature →
      c.encoding.SetSignatures [sigEntry sdk c K account.Sequence signature] = none →
      c.encoding.TxEncoder
        (envelope (NewMsgSend sdk senderAddr senderAddr amount) feeCoin req.GasLimit
          (sigEntry sdk c K account.Sequence signature)) = .ok txBytes →
      c.tm txBytes = .ok tmResp →
      tmResp.Code = 0 →
      c.Send sdk req =
        (.returned ⟨SprintfUpperX tmResp.Hash, none⟩,
          [.AccAddressFromBech32 req.Sender, .AccAddressFromBech32 req.Receiver,
           .ParseCoinsNormalized req.Amount, .ParseCoinsNormalized req.FeeCoin,
           .Resolve senderAddr,
           .ValidateBasic (NewMsgSend sdk senderAddr senderAddr amount),
           .SetMsgs [NewMsgSend sdk senderAddr senderAddr amount],
           .Account (sdk.AccAddressString signer),
           .UnpackAny accountRaw,
           .SetSignatures [sigEntry sdk c K account.Sequence []],
           .GetSignBytes c.encoding.DefaultMode
             { ChainID := c.chainID, AccountNumber := account.AccountNumber,
               Sequence := account.Sequence }
             (envelope (NewMsgSend sdk senderAddr senderAddr amount) feeCoin req.GasLimit
               (sigEntry sdk c K account.Sequence [])),
           .Sign K signBytes,
           .SetSignatures [sigEntry sdk c K account.Sequence signature],
           .TxEncoder
             (envelope (NewMsgSend sdk senderAddr senderAddr amount) feeCoin req.GasLimit
               (sigEntry sdk c K account.Sequence signature)),
           .BroadcastTxSync txBytes])) := by
  constructor
  · obtain ⟨ts, hts⟩ := sign_reaches_account sdk c K _ feeCoin req.GasLimit signer rest
      hvalid hmsgs hsigners
    rcases hsg : c.sign sdk K (NewMsgSend sdk senderAddr senderAddr amount) feeCoin
      req.GasLimit with ⟨r, t⟩
    rw [hsg] at hts
    simp only at hts
    subst hts
    simp only [BfxClient.Send, hsender, hrecv, hamount, hfee, hresolve, hsg]
    rcases r with (_ | txBytes) | _
    · exact ⟨ts, by simp⟩
    · simp only
      split
      · exact ⟨ts ++ [.BroadcastTxSync txBytes], by simp⟩
      · split <;> exact ⟨ts ++ [.BroadcastTxSync txBytes], by simp⟩
    · exact ⟨ts, by simp⟩
  · intro accountRaw account signBytes signature txBytes tmResp hauth hunpack hplaceholder
      hbytes hsign hfinal henc htm hcode
    have hsg := sign_all_stages sdk c K _ feeCoin req.GasLimit signer rest accountRaw account
      signBytes signature txBytes hvalid hmsgs hsigners hauth hunpack hplaceholder hbytes hsign
      hfinal henc
    simp [BfxClient.Send, hsender, hrecv, hamount, hfee, hresolve, hsg, htm, hcode,
      HexBytes.Format]

/-- The request of the test with the sender as the receiver, on the demo
client: the account query for the sender is the eighth call, every later
stage succeeds, and `Send` returns the hash `ABCD` after the broadcast. -/
theorem Send_to_self_is_not_rejected_witness :
    (∃ ts, (demoClient.Send demoSdk selfReq).2 =
      [.AccAddressFromBech32 selfReq.Sender, .AccAddressFromBech32 selfReq.Receiver,
       .ParseCoinsNormalized selfReq.Amount, .ParseCoinsNormalized selfReq.FeeCoin,
       .Resolve [1, 2],
       .ValidateBasic (NewMsgSend demoSdk [1, 2] [1, 2] [⟨"stake", 100⟩]),
       .SetMsgs [NewMsgSend demoSdk [1, 2] [1, 2] [⟨"stake", 100⟩]],
       .Account (demoSdk.AccAddressString [1, 2])] ++ ts) ∧
    (demoClient.Send demoSdk selfReq).1 = .returned ⟨"ABCD", none⟩ ∧
    Call.BroadcastTxSync [2, 1, 5, 2] ∈ (demoClient.Send demoSdk selfReq).2 :=
  have h := Send_to_self_is_not_rejected demoSdk demoClient selfReq [1, 2] [⟨"stake", 100⟩]
    [⟨"stake", 10⟩] demoKey [1, 2] [] rfl rfl rfl rfl rfl rfl rfl rfl
  have hrun := h.2 ⟨"/cosmos.auth.v1beta1.BaseAccount", []⟩ ⟨5, 2⟩ [5, 2] [2, 1, 5, 2]
    [2, 1, 5, 2] { Code := 0, Hash := [0xab, 0xcd], Log := "" } rfl rfl rfl rfl rfl rfl rfl
    rfl rfl
  ⟨h.1, congrArg Prod.fst hrun, by rw [hrun]; simp⟩

/-! ## The stages of `Send` -/

/-- Calls that succeeded, followed by a run whose calls but the last
succeeded: every call but the last succeeded, and the last call is that of
the run. -/
theorem run_append (sdk : Sdk) (c : BfxClient) (pre ts : List Call)
    (hpre : ∀ call ∈ pre, call.err sdk c = none) (hne : ts ≠ [])
    (hts : ∀ call ∈ ts.dropLast, call.err sdk c = none) :
    (∀ call ∈ (pre ++ ts).dropLast, call.err sdk c = none) ∧
    (pre ++ ts).getLast? = ts.getLast? := by
  constructor
  · rw [List.dropLast_append_of_ne_nil pre hne]
    intro call hcall
    rcases List.mem_append.1 hcall with h | h
    · exact hpre call h
    · exact hts call h
  · exact List.getLast?_append_of_ne_nil pre hne

/-- Calls that succeeded, followed by a run of stages: the operations are an
initial segment of the stages of both, and a failing call is one of the run. -/
theorem run_initial_segment (sdk : Sdk) (c : BfxClient) (pre ts : List Call) (p s rest : List Op)
    (hp : pre.map Call.op = p) (hpre : ∀ call ∈ pre, call.err sdk c = none)
    (hs : ts.map Call.op <+: s) :
    ((pre ++ ts).map Call.op <+: p ++ (s ++ rest)) ∧
    (∀ call ∈ pre ++ ts, ∀ e, call.err sdk c = some e → call ∈ ts) := by
  constructor
  · rw [List.map_append, hp]
    exact (List.prefix_append_right_inj p).2 (hs.trans (List.prefix_append s rest))
  · intro call hcall e he
    rcases List.mem_append.1 hcall with h | h
    · rw [hpre call h] at he
      exact absurd he (by simp)
    · exact h

/-- The five calls of `Send` before `sign`, when each succeeded. -/
theorem Send_first_calls (sdk : Sdk) (c : BfxClient) (req : BankSendRequest)
    (senderAddr recvAddr : Bytes) (amount feeCoin : Coins) (K : PrivKey)
    (h1 : sdk.AccAddressFromBech32 req.Sender = .ok senderAddr)
    (h2 : sdk.AccAddressFromBech32 req.Receiver = .ok recvAddr)
    (h3 : sdk.ParseCoinsNormalized req.Amount = .ok amount)
    (h4 : sdk.ParseCoinsNormalized req.FeeCoin = .ok feeCoin)
    (h5 : c.resolver senderAddr = .ok K) :
    ∀ call ∈ [Call.AccAddressFromBech32 req.Sender] ++
        [Call.AccAddressFromBech32 req.Receiver] ++ [Call.ParseCoinsNormalized req.Amount] ++
        [Call.ParseCoinsNormalized req.FeeCoin] ++ [Call.Resolve senderAddr],
      call.err sdk c = none := by
  simp [Call.err, errOf, *]

/-- A run of `sign` that returns bytes made the nine calls, none failing. -/
theorem sign_ok_calls (sdk : Sdk) (c : BfxClient) (privKey : PrivKey) (msg : MsgSend)
    (fee : Coins) (gasLimit : Nat) (txBytes : Bytes) (ts : List Call)
    (h : c.sign sdk privKey msg fee gasLimit = (.returned (.ok txBytes), ts)) :
    (∀ call ∈ ts, call.err sdk c = none) ∧ ts.map Call.op = signStages := by
  obtain ⟨_, _, _, s4, _, s6, _⟩ := sign_run _ _ _ _ _ _ _ _ h
  refine ⟨fun call hcall => ?_, s6 _ rfl⟩
  cases he : call.err sdk c with
  | none => rfl
  | some e => exact absurd (s4 call hcall e he).1 (by simp)

/-- Five calls and the nine calls of `sign`, none failing, followed by the
broadcast: the fifteen stages. -/
theorem run_then_broadcast (sdk : Sdk) (c : BfxClient) (pre ts : List Call) (txBytes : Bytes)
    (hpre : ∀ call ∈ pre, call.err sdk c = none)
    (hts : ∀ call ∈ ts, call.err sdk c = none)
    (hops : ts.map Call.op = signStages)
    (hp : pre.map Call.op =
      [.AccAddressFromBech32, .AccAddressFromBech32, .ParseCoinsNormalized,
        .ParseCoinsNormalized, .Resolve]) :
    (pre ++ ts ++ [Call.BroadcastTxSync txBytes]).map Call.op = sendStages ∧
    (∀ call ∈ (pre ++ ts ++ [Call.BroadcastTxSync txBytes]).dropLast,
      call.err sdk c = none) ∧
    (pre ++ ts ++ [Call.BroadcastTxSync txBytes]).getLast? =
      some (Call.BroadcastTxSync txBytes) ∧
    (pre ++ ts ++ [Call.BroadcastTxSync txBytes]).length = 15 ∧
    (∀ call ∈ pre ++ ts ++ [Call.BroadcastTxSync txBytes], ∀ e,
      call.err sdk c = some e → call = Call.BroadcastTxSync txBytes) := by
  have hall : ∀ call ∈ pre ++ ts, call.err sdk c = none := fun call hcall => by
    rcases List.mem_append.1 hcall with h | h
    · exact hpre call h
    · exact hts call h
  refine ⟨?_, ?_, ?_, ?_, ?_⟩
  · rw [List.map_append, List.map_append, hp, hops]
    rfl
  · rw [List.dropLast_concat]
    exact hall
  · exact List.getLast?_concat _
  · have h1 := congrArg List.length hp
    have h2 := congrArg List.length hops
    simp only [List.length_map] at h1 h2
    simp only [List.length_append, h1, h2]
    rfl
  · intro call hcall e he
    rcases List.mem_append.1 hcall with h | h
    · rw [hall call h] at he
      exact absurd he (by simp)
    · simpa using h

/-- The fifteen stages: five of `Send`, the nine of `sign`, the broadcast. -/
theorem sendStages_eq :
    sendStages =
      [.AccAddressFromBech32, .AccAddressFromBech32, .ParseCoinsNormalized,
        .ParseCoinsNormalized, .Resolve] ++ (signStages ++ [.BroadcastTxSync]) := rfl

/-- Claim C7. The calls of `Send` are an initial segment of the fifteen
stages, in their order, so that no stage is invoked twice and the broadcast is
made at most once, as the last stage; every call but the last succeeded; a
call that fails with `e` is the last call, no later stage being invoked, and
`Send` returns the empty hash together with exactly `e`; and a run in which
no call fails goes through all fifteen stages, unless the index of the first
signer panics. -/
theorem Send_stage_failure (sdk : Sdk) (c : BfxClient) (req : BankSendRequest) :
    ((c.Send sdk req).2.map Call.op <+: sendStages) ∧
    (∀ call ∈ (c.Send sdk req).2.dropLast, call.err sdk c = none) ∧
    (∀ call ∈ (c.Send sdk req).2, ∀ e, call.err sdk c = some e →
      (c.Send sdk req).1 = .returned ⟨"", some e⟩ ∧ (c.Send sdk req).2.getLast? = some call) ∧
    ((∀ call ∈ (c.Send sdk req).2, call.err sdk c = none) →
      (c.Send sdk req).2.length = 15 ∨ (c.Send sdk req).1 = .panicked) := by
  rcases hrun : c.Send sdk req with ⟨r, t⟩
  simp only [BfxClient.Send] at hrun
  repeat' split at hrun
  all_goals cases hrun
  all_goals try (simp [Call.op, Call.err, errOf, sendStages, *]; done)
  all_goals
    obtain ⟨s1, s2, s3, s4, s5, s6, s7⟩ := sign_run _ _ _ _ _ _ _ _ (by assumption)
    have hpre := Send_first_calls sdk c req _ _ _ _ _ ‹_› ‹_› ‹_› ‹_› ‹_›
    obtain ⟨a1, a2⟩ := run_initial_segment sdk c _ _ _ signStages [.BroadcastTxSync] rfl hpre s1
    obtain ⟨a3, a4⟩ := run_append sdk c _ _ hpre s2 s3
  · -- the index of the signers panics
    refine ⟨by rw [sendStages_eq]; exact a1, a3, ?_, fun _ => Or.inr rfl⟩
    intro call hcall e he
    exact absurd (s4 call (a2 call hcall e he) e he).1 (by simp)
  · -- a stage of sign fails
    refine ⟨by rw [sendStages_eq]; exact a1, a3, ?_, ?_⟩
    · intro call hcall e he
      obtain ⟨h1, h2⟩ := s4 call (a2 call hcall e he) e he
      simp only [Outcome.returned.injEq, Except.error.injEq] at h1
      subst h1
      exact ⟨rfl, a4.trans h2⟩
    · intro hall
      obtain ⟨call, hcall, he⟩ := s5 _ rfl
      rw [hall call (List.mem_append_right _ hcall)] at he
      exact absurd he (by simp)
  all_goals
    obtain ⟨hts, hops⟩ := sign_ok_calls _ _ _ _ _ _ _ _ (by assumption)
    obtain ⟨b1, b2, b3, b4, b5⟩ := run_then_broadcast sdk c _ _ _ hpre hts hops rfl
    refine ⟨by rw [b1], b2, ?_, fun _ => Or.inl b4⟩
    intro call hcall e he
    have hcall' := b5 call hcall e he
    subst hcall'
    simp [Call.err, errOf, *] at he
  subst he
  exact ⟨rfl, b3⟩

/-- On the client whose resolver holds another key, the fifth call fails with
`address not found`: it is the last call and its error is the result. -/
theorem Send_stage_failure_witness :
    (strangerClient.Send demoSdk demoReq).1 =
      .returned ⟨"", some ⟨"address not found"⟩⟩ ∧
    (strangerClient.Send demoSdk demoReq).2.getLast? = some (.Resolve [1, 2]) :=
  (Send_stage_failure demoSdk strangerClient demoReq).2.2.1 (.Resolve [1, 2]) (by decide)
    ⟨"address not found"⟩ rfl

/-! ## The factories of the HTTP handler -/

/-- Claim C10 at a concrete input: with the chain ID `testing` in the
configuration and the account number 5 and the sequence 2 in the request body,
the factory that builds the unsigned transaction carries `testing`, 5 and 2,
and the factory handed to `tx.Sign` carries the empty chain ID, the account
number 0 and the sequence 0. -/
theorem CosmosSdkApi_Send_sign_factory_unbound :
    ((CosmosSdkApi.Send ⟨demoConfig⟩ demoBody).txfDirect.chainID = "testing" ∧
      (CosmosSdkApi.Send ⟨demoConfig⟩ demoBody).txfDirect.accountNumber = 5 ∧
      (CosmosSdkApi.Send ⟨demoConfig⟩ demoBody).txfDirect.sequence = 2) ∧
    ((CosmosSdkApi.Send ⟨demoConfig⟩ demoBody).txf.chainID = "" ∧
      (CosmosSdkApi.Send ⟨demoConfig⟩ demoBody).txf.accountNumber = 0 ∧
      (CosmosSdkApi.Send ⟨demoConfig⟩ demoBody).txf.sequence = 0) := by
  decide

end Wipcosmos
